import Mathlib

/-!
# Verification of the kilo text editor core (src/main.c)

A shallow embedding of the editor's row buffer, tab rendering, cursor and
viewport logic, key decoder, file open/save, and incremental search, with
theorems settling the specification's testable properties.

Modelling conventions:
* C `int` fields of `struct EditorConfig` become `Int`; row contents become
  `List Char` (the C `size`/`rsize` fields are the list lengths, the
  terminating NUL is not stored).
* Byte streams read from the terminal become `List Nat`; a `read` that times
  out corresponds to the stream being exhausted.
* File descriptors and `write`/`ftruncate` success are abstracted by a
  Boolean passed to `editor_save`.
-/

/-- `TAB_STOP` from main.c (line 41). -/
def TAB_STOP : Nat := 4

/-- Key codes from `enum editorKey` (main.c lines 46-57). -/
def BACKSPACE : Nat := 127

def ARROW_LEFT : Nat := 1000

def ARROW_RIGHT : Nat := 1001

def ARROW_UP : Nat := 1002

def ARROW_DOWN : Nat := 1003

def HOME : Nat := 1004

def END : Nat := 1005

def DEL : Nat := 1006

def PAGE_UP : Nat := 1007

def PAGE_DOWN : Nat := 1008

/-- Render expansion of `editor_update_row` (main.c lines 292-315): a tab at
render column `idx` emits one space and then pads with spaces until the
column is a multiple of `TAB_STOP`, i.e. `TAB_STOP - idx % TAB_STOP` spaces
in total; any other character is copied. -/
def renderChars : List Char → Nat → List Char
  | [], _ => []
  | c :: cs, idx =>
    if c = '\t' then
      List.replicate (TAB_STOP - idx % TAB_STOP) ' ' ++
        renderChars cs (idx + (TAB_STOP - idx % TAB_STOP))
    else
      c :: renderChars cs (idx + 1)

/-- A text row: `chars` is the stored text, `render` the tab-expanded form
(`erow` in main.c lines 61-66, with `size`/`rsize` as the list lengths). -/
structure erow where
  chars : List Char
  render : List Char
deriving DecidableEq

/-- Row construction as done by `editor_insert_row` (main.c lines 317-336):
copy the text and immediately regenerate the render form
(`editor_update_row`). -/
def mkRow (s : List Char) : erow := ⟨s, renderChars s 0⟩

/-- One step of the cursor-to-render column conversion: the body of the loop
in `editor_row_cx_to_rx` (main.c lines 265-274),
`rx += (TAB_STOP - 1) - (rx % TAB_STOP); rx++;` for a tab, `rx++` otherwise. -/
def tabStep (rx : Nat) (c : Char) : Nat :=
  if c = '\t' then rx + ((TAB_STOP - 1) - rx % TAB_STOP) + 1 else rx + 1

/-- The loop of `editor_row_cx_to_rx` (main.c lines 265-274): fold `tabStep`
over the first `cx` characters.  Iterations past the end of the row (which in
C would read the NUL terminator, not a tab) advance by one. -/
def cxToRxGo : Nat → List Char → Nat → Nat
  | 0, _, rx => rx
  | n + 1, [], rx => cxToRxGo n [] (rx + 1)
  | n + 1, c :: cs, rx => cxToRxGo n cs (tabStep rx c)

/-- `editor_row_cx_to_rx` (main.c lines 265-274). -/
def editor_row_cx_to_rx (row : erow) (cx : Nat) : Nat :=
  cxToRxGo cx row.chars 0

/-- The loop of `editor_row_rx_to_cx` (main.c lines 276-290): advance
`cur_rx` over the row's characters and return the index of the first
character whose advance passes `rx`; if none does, return the row size. -/
def rxToCxGo : List Char → Nat → Nat → Nat → Nat
  | [], _, _, cx => cx
  | c :: cs, cur_rx, rx, cx =>
    if rx < tabStep cur_rx c then cx
    else rxToCxGo cs (tabStep cur_rx c) rx (cx + 1)

/-- `editor_row_rx_to_cx` (main.c lines 276-290). -/
def editor_row_rx_to_cx (row : erow) (rx : Nat) : Nat :=
  rxToCxGo row.chars 0 rx 0

/-- The global editor state `struct EditorConfig` (main.c lines 68-84),
restricted to the fields the verified operations touch.  `numrows` is
`rows.length`; `filename`, the status message and the saved termios are
omitted (plumbing excluded by the specification). -/
structure EditorConfig where
  cx : Int
  cy : Int
  rx : Int
  rowoffset : Int
  columnoffset : Int
  screenrows : Int
  screencolumns : Int
  rows : List erow
  dirty : Nat
deriving DecidableEq

/-- Replace the row at an index, leaving the list unchanged when the index is
out of range (models writing through a row pointer `&E.row[i]`). -/
def modifyIdx (f : erow → erow) : Nat → List erow → List erow
  | _, [] => []
  | 0, r :: rs => f r :: rs
  | n + 1, r :: rs => r :: modifyIdx f n rs

/-- `editor_insert_row` (main.c lines 317-336): out-of-range insertion index
is a no-op, otherwise the new row is spliced in and `dirty` incremented. -/
def editor_insert_row (E : EditorConfig) (at' : Int) (s : List Char) : EditorConfig :=
  if at' < 0 ∨ at' > (E.rows.length : Int) then E
  else
    { E with
      rows := E.rows.take at'.toNat ++ mkRow s :: E.rows.drop at'.toNat
      dirty := E.dirty + 1 }

/-- `editor_append_row` (main.c lines 338-340). -/
def editor_append_row (E : EditorConfig) (s : List Char) : EditorConfig :=
  editor_insert_row E (E.rows.length : Int) s

/-- `editor_del_row` (main.c lines 347-355): out-of-range index is a no-op,
otherwise the row is removed and `dirty` incremented. -/
def editor_del_row (E : EditorConfig) (at' : Int) : EditorConfig :=
  if at' < 0 ∨ at' ≥ (E.rows.length : Int) then E
  else
    { E with
      rows := E.rows.take at'.toNat ++ E.rows.drop (at'.toNat + 1)
      dirty := E.dirty + 1 }

/-- The index clamp of `editor_row_insert_char` (main.c lines 358-359):
`if (at < 0 || at > row->size) at = row->size;`. -/
def insertClampIdx (row : erow) (at' : Int) : Nat :=
  if at' < 0 ∨ at' > (row.chars.length : Int) then row.chars.length else at'.toNat

/-- The row mutation of `editor_row_insert_char` (main.c lines 357-366): an
index outside `[0, size]` is replaced by `size`, the character is spliced in
and the render form regenerated (`editor_update_row`, which is also what `mkRow` performs). -/
def editor_row_insert_char (row : erow) (at' : Int) (c : Char) : erow :=
  mkRow (row.chars.take (insertClampIdx row at') ++ c :: row.chars.drop (insertClampIdx row at'))

/-- State-level `editor_row_insert_char` applied to row `i` (the C function
mutates the row through a pointer and increments `E.dirty`). -/
def row_insert_char_st (E : EditorConfig) (i : Nat) (at' : Int) (c : Char) : EditorConfig :=
  { E with
    rows := modifyIdx (fun r => editor_row_insert_char r at' c) i E.rows
    dirty := E.dirty + 1 }

/-- The row mutation of `editor_row_append_string` (main.c lines 368-375). -/
def editor_row_append_string (row : erow) (s : List Char) : erow :=
  mkRow (row.chars ++ s)

/-- State-level `editor_row_append_string` applied to row `i`; always
increments `E.dirty`. -/
def row_append_string_st (E : EditorConfig) (i : Nat) (s : List Char) : EditorConfig :=
  { E with
    rows := modifyIdx (fun r => editor_row_append_string r s) i E.rows
    dirty := E.dirty + 1 }

/-- The row mutation of `editor_row_delete_char` (main.c lines 377-384): an
index outside `[0, size)` returns the row unchanged. -/
def editor_row_delete_char (row : erow) (at' : Int) : erow :=
  if at' < 0 ∨ at' ≥ (row.chars.length : Int) then row
  else mkRow (row.chars.take at'.toNat ++ row.chars.drop (at'.toNat + 1))

/-- State-level `editor_row_delete_char` on row `i`: the C function returns
before touching `E.dirty` when the index is out of range. -/
def row_delete_char_st (E : EditorConfig) (i : Nat) (at' : Int) : EditorConfig :=
  if at' < 0 ∨ at' ≥ ((E.rows.getD i (mkRow [])).chars.length : Int) then E
  else
    { E with
      rows := modifyIdx (fun r => editor_row_delete_char r at') i E.rows
      dirty := E.dirty + 1 }

/-- `editor_del_char` (main.c lines 411-429): Backspace.  At column 0 of a
row (other than the first) the row is joined onto the previous one; otherwise
the character left of the cursor is deleted. -/
def editor_del_char (E : EditorConfig) : EditorConfig :=
  if E.cy = (E.rows.length : Int) then E
  else if E.cx = 0 ∧ E.cy = 0 then E
  else if 0 < E.cx then
    let E' := row_delete_char_st E E.cy.toNat (E.cx - 1)
    { E' with cx := E.cx - 1 }
  else
    let row := E.rows.getD E.cy.toNat (mkRow [])
    let prev := E.rows.getD (E.cy.toNat - 1) (mkRow [])
    let E1 := { E with cx := (prev.chars.length : Int) }
    let E2 := row_append_string_st E1 (E.cy.toNat - 1) row.chars
    let E3 := editor_del_row E2 E.cy
    { E3 with cy := E.cy - 1 }

/-- `editor_scroll` (main.c lines 596-614): recompute `rx` from `(cx, cy)`
(0 when the cursor is past the last row), then clamp `rowoffset` against
`cy` and `columnoffset` against `rx`, each by two sequential tests exactly as
in the source. -/
def editor_scroll (E : EditorConfig) : EditorConfig :=
  let rx : Int :=
    if E.cy < (E.rows.length : Int) then
      (cxToRxGo E.cx.toNat (E.rows.getD E.cy.toNat (mkRow [])).chars 0 : Int)
    else 0
  let ro1 := if E.cy < E.rowoffset then E.cy else E.rowoffset
  let ro2 := if E.cy ≥ ro1 + E.screenrows then E.cy - E.screenrows + 1 else ro1
  let co1 := if rx < E.columnoffset then rx else E.columnoffset
  let co2 := if rx ≥ co1 + E.screencolumns then rx - E.screencolumns + 1 else co1
  { E with rx := rx, rowoffset := ro2, columnoffset := co2 }

/-- The length of the row under the cursor, 0 when the cursor is at or past
the end of the document (`row ? row->size : 0` with
`row = E.cy >= E.numrows ? NULL : &E.row[E.cy]`, main.c lines 812-813). -/
def currentRowLen (E : EditorConfig) : Int :=
  if E.cy ≥ (E.rows.length : Int) then 0
  else ((E.rows.getD E.cy.toNat (mkRow [])).chars.length : Int)

/-- The `switch` of `editor_move_cursor` (main.c lines 789-810). -/
def editor_move_cursor_step (E : EditorConfig) (key : Nat) : EditorConfig :=
  if key = ARROW_LEFT then
    if E.cx ≠ 0 then { E with cx := E.cx - 1 } else E
  else if key = ARROW_RIGHT then
    if E.cy ≥ (E.rows.length : Int) then E
    else if E.cx < ((E.rows.getD E.cy.toNat (mkRow [])).chars.length : Int) then
      { E with cx := E.cx + 1 }
    else E
  else if key = ARROW_DOWN then
    if E.cy ≠ (E.rows.length : Int) - 1 then { E with cy := E.cy + 1 } else E
  else if key = ARROW_UP then
    if E.cy ≠ 0 then { E with cy := E.cy - 1 } else E
  else E

/-- `editor_move_cursor` (main.c lines 786-817): the arrow-key switch
followed by the final snap of `cx` to the new row's length. -/
def editor_move_cursor (E : EditorConfig) (key : Nat) : EditorConfig :=
  let E1 := editor_move_cursor_step E key
  if E1.cx > currentRowLen E1 then { E1 with cx := currentRowLen E1 } else E1

/-- `editor_read_key` (main.c lines 125-222) on a byte stream: `c` is the
first byte read, `rest` the bytes available for the lookahead reads; a read
hitting the end of `rest` is the timed-out `read != 1`, after which the
function returns the byte `c` itself.  Byte values: 27 ESC, 91 `[`, 48 `0`,
57 `9`, 126 `~`, 65-68 `A`-`D`, 72 `H`, 70 `F`. -/
def editor_read_key (c : Nat) (rest : List Nat) : Nat :=
  if c = 27 then
    match rest with
    | s0 :: s1 :: rest2 =>
      if s0 = 91 then
        if 48 ≤ s1 ∧ s1 ≤ 57 then
          match rest2 with
          | s2 :: _ =>
            if s2 = 126 then
              if s1 = 49 then HOME
              else if s1 = 51 then DEL
              else if s1 = 52 then END
              else if s1 = 53 then PAGE_UP
              else if s1 = 54 then PAGE_DOWN
              else if s1 = 55 then HOME
              else if s1 = 56 then END
              else 27
            else 27
          | [] => 27
        else
          if s1 = 65 then ARROW_UP
          else if s1 = 66 then ARROW_DOWN
          else if s1 = 67 then ARROW_RIGHT
          else if s1 = 68 then ARROW_LEFT
          else if s1 = 72 then HOME
          else if s1 = 70 then END
          else if s1 = 53 then PAGE_UP
          else if s1 = 54 then PAGE_DOWN
          else if s1 = 55 then HOME
          else if s1 = 56 then END
          else 27
      else if s0 = 48 then
        if s1 = 53 then PAGE_UP
        else if s1 = 54 then PAGE_DOWN
        else if s1 = 72 then HOME
        else if s1 = 70 then END
        else 27
      else 27
    | _ => 27
  else if c = 126 then
    match rest with
    | s0 :: s1 :: rest2 =>
      if s0 = 91 then
        match rest2 with
        | s2 :: _ =>
          if s2 = 126 then
            if s1 = 53 then PAGE_UP
            else if s1 = 54 then PAGE_DOWN
            else c
          else c
        | [] => c
      else c
    | _ => c
  else c

/-- Modelled from the spec (section 4.2): the decoding table for escape
sequences, mapping the bytes following a leading ESC to a key.
`ESC [ A/B/C/D` are the arrows, `ESC [ H / F` Home/End, and
`ESC [ <digit> ~` maps 1,7 to Home, 3 to Delete, 4,8 to End, 5 to PageUp and
6 to PageDown; every other sequence is absent from the table (`none`). -/
def spec_decode (bytes : List Nat) : Option Nat :=
  match bytes with
  | s0 :: s1 :: rest =>
    if s0 = 91 then
      if s1 = 65 then some ARROW_UP
      else if s1 = 66 then some ARROW_DOWN
      else if s1 = 67 then some ARROW_RIGHT
      else if s1 = 68 then some ARROW_LEFT
      else if s1 = 72 then some HOME
      else if s1 = 70 then some END
      else if 48 ≤ s1 ∧ s1 ≤ 57 then
        match rest with
        | s2 :: _ =>
          if s2 = 126 then
            if s1 = 49 ∨ s1 = 55 then some HOME
            else if s1 = 51 then some DEL
            else if s1 = 52 ∨ s1 = 56 then some END
            else if s1 = 53 then some PAGE_UP
            else if s1 = 54 then some PAGE_DOWN
            else none
          else none
        | [] => none
      else none
    else none
  | _ => none

/-- The spec's decoding table extended with the sequences the source
additionally recognizes in its `seq[0] == '0'` branch (main.c lines
187-198): `ESC 0 5/6/H/F` decode to PageUp/PageDown/Home/End. -/
def spec_decode_ext (bytes : List Nat) : Option Nat :=
  match bytes with
  | s0 :: s1 :: _ =>
    if s0 = 48 then
      if s1 = 53 then some PAGE_UP
      else if s1 = 54 then some PAGE_DOWN
      else if s1 = 72 then some HOME
      else if s1 = 70 then some END
      else none
    else spec_decode bytes
  | _ => spec_decode bytes

/-- The `getline` loop structure of `editor_open` (main.c lines 464-469):
split the file content into chunks, each ending at a `\n` (inclusive), the
final chunk possibly unterminated. -/
def getlineSplit : List Char → List (List Char)
  | [] => []
  | c :: cs =>
    if c = '\n' then ['\n'] :: getlineSplit cs
    else
      match getlineSplit cs with
      | [] => [[c]]
      | l :: ls => (c :: l) :: ls

/-- The terminator-stripping loop of `editor_open` (main.c lines 465-466):
drop trailing `\n` and `\r` characters. -/
def stripTrail (l : List Char) : List Char :=
  (l.reverse.dropWhile (fun c => c = '\n' || c = '\r')).reverse

/-- `editor_open` (main.c lines 453-473): append one row per `getline`
chunk with terminators stripped, then reset `dirty` to 0.  The `filename`
bookkeeping and `fopen` failure (fatal) are outside the model. -/
def editor_open (content : List Char) (E : EditorConfig) : EditorConfig :=
  let E' := (getlineSplit content).foldl (fun E l => editor_append_row E (stripTrail l)) E
  { E' with dirty := 0 }

/-- `editor_rows_to_string` (main.c lines 433-451): every row's text
followed by one `\n`. -/
def editor_rows_to_string (E : EditorConfig) : List Char :=
  (E.rows.map (fun r => r.chars ++ ['\n'])).flatten

/-- `editor_save` (main.c lines 475-503) with the file-system outcome of
`open`/`ftruncate`/`write` abstracted as `ok`: on success `dirty` is reset
to 0; on failure the function only emits a status message, leaving the
state untouched. -/
def editor_save (ok : Bool) (E : EditorConfig) : EditorConfig :=
  if ok then { E with dirty := 0 } else E

/-- `init_editor` (main.c lines 894-910): all cursor, offset and document
fields zeroed; the screen size comes from the terminal query, with two rows
reserved for the status and message bars. -/
def init_editor (sr sc : Int) : EditorConfig :=
  { cx := 0, cy := 0, rx := 0, rowoffset := 0, columnoffset := 0
    screenrows := sr - 2, screencolumns := sc, rows := [], dirty := 0 }

/-- The `static` state of `editor_find_callback` (main.c lines 508-509). -/
structure FindState where
  last_match : Int
  direction : Int
deriving DecidableEq

/-- `strstr(hay, needle)` as the first index at which `needle` occurs in
`hay` (`none` when there is no occurrence). -/
def strstrIdx (hay needle : List Char) : Option Nat :=
  (List.range (hay.length + 1)).find? (fun i => needle.isPrefixOf (hay.drop i))

/-- The scanning loop of `editor_find_callback` (main.c lines 531-549):
step `current` by `direction`, wrap circularly, and stop at the first row
whose render form contains the query, returning that row index and the match
position in render space; at most `numrows` iterations. -/
def findLoop (E : EditorConfig) (query : List Char) :
    Nat → Int → Int → Option (Int × Nat)
  | 0, _, _ => none
  | i + 1, current, direction =>
    let cur1 := current + direction
    let cur2 :=
      if cur1 = -1 then (E.rows.length : Int) - 1
      else if cur1 = (E.rows.length : Int) then 0
      else cur1
    let row := E.rows.getD cur2.toNat (mkRow [])
    match strstrIdx row.render query with
    | some idx => some (cur2, idx)
    | none => findLoop E query i cur2 direction

/-- `editor_find_callback` (main.c lines 507-550).  Enter or ESC resets the
static search state; arrow keys set the direction; any other key resets to a
fresh forward search; then (including the quirk `if (last_match == 1)
direction = 1;` on line 528) the rows are scanned and, on a hit, the cursor
jumps to the match. -/
def editor_find_callback (buf : List Char) (key : Nat) (E : EditorConfig)
    (fs : FindState) : EditorConfig × FindState :=
  if key = 13 ∨ key = 27 then (E, ⟨-1, 1⟩)
  else
    let fs1 : FindState :=
      if key = ARROW_RIGHT ∨ key = ARROW_DOWN then { fs with direction := 1 }
      else if key = ARROW_LEFT ∨ key = ARROW_UP then { fs with direction := -1 }
      else ⟨-1, 1⟩
    let fs2 := if fs1.last_match = 1 then { fs1 with direction := 1 } else fs1
    match findLoop E buf E.rows.length fs2.last_match fs2.direction with
    | some (current, idx) =>
      let row := E.rows.getD current.toNat (mkRow [])
      ({ E with cy := current, cx := (editor_row_rx_to_cx row idx : Int) },
        ⟨current, fs2.direction⟩)
    | none => (E, fs2)

/-- `iscntrl` restricted to the byte values the prompt can receive: control
characters are 0-31 and 127 (values ≥ 128 are filtered by the `c < 128`
test that follows in the source). -/
def iscntrl (c : Nat) : Bool := c < 32 || c = 127

/-- `editor_prompt` (main.c lines 742-784) specialized to the find callback,
driven by a list of already-decoded key codes.  Each iteration first calls
`editor_refresh_screen`, whose only state effect is `editor_scroll`.
Returns `none` when the key list is exhausted with the prompt still open
(the C loop would block for more input); otherwise
`some (result, state, search state)` with `result = none` for ESC (cancel)
and `result = some buf` for Enter on a non-empty buffer (commit). -/
def editor_prompt_find : List Nat → List Char → EditorConfig → FindState →
    Option (Option (List Char) × EditorConfig × FindState)
  | [], _, _, _ => none
  | c :: keys, buf, E0, fs =>
    let E := editor_scroll E0
    if c = DEL ∨ c = 8 ∨ c = BACKSPACE then
      let buf' := buf.dropLast
      let (E', fs') := editor_find_callback buf' c E fs
      editor_prompt_find keys buf' E' fs'
    else if c = 27 then
      let (E', fs') := editor_find_callback buf c E fs
      some (none, E', fs')
    else if c = 13 then
      if buf ≠ [] then
        let (E', fs') := editor_find_callback buf c E fs
        some (some buf, E', fs')
      else
        let (E', fs') := editor_find_callback buf c E fs
        editor_prompt_find keys buf E' fs'
    else if ¬ iscntrl c ∧ c < 128 then
      let buf' := buf ++ [Char.ofNat c]
      let (E', fs') := editor_find_callback buf' c E fs
      editor_prompt_find keys buf' E' fs'
    else
      let (E', fs') := editor_find_callback buf c E fs
      editor_prompt_find keys buf E' fs'

/-- `editor_find` (main.c lines 552-568): save the cursor and viewport, run
the search prompt, and restore the saved fields exactly when the prompt was
cancelled.  `none` when the key stream ran out with the prompt open. -/
def editor_find (keys : List Nat) (E : EditorConfig) (fs : FindState) :
    Option (EditorConfig × FindState) :=
  match editor_prompt_find keys [] E fs with
  | none => none
  | some (some _, E', fs') => some (E', fs')
  | some (none, E', fs') =>
    some ({ E' with
            cx := E.cx
            cy := E.cy
            columnoffset := E.columnoffset
            rowoffset := E.rowoffset }, fs')

/-- A single-row edit: the two character-level mutations of the row buffer
(`editor_row_insert_char` / `editor_row_delete_char`). -/
inductive RowOp where
  | ins (at' : Int) (c : Char)
  | del (at' : Int)

/-- Apply one `RowOp` to a row. -/
def applyRowOp (r : erow) : RowOp → erow
  | .ins at' c => editor_row_insert_char r at' c
  | .del at' => editor_row_delete_char r at'

/-- Apply a sequence of insert-char/delete-char operations to a row. -/
def applyRowOps (r : erow) (ops : List RowOp) : erow :=
  ops.foldl applyRowOp r

/-- Concrete editor state for the scroll witness: cursor on a tabbed row
with both offsets out of range. -/
def testE3 : EditorConfig :=
  { cx := 2, cy := 0, rx := 0, rowoffset := 3, columnoffset := 7
    screenrows := 10, screencolumns := 5
    rows := [mkRow ['\t', 'x']], dirty := 0 }

/-- Concrete editor state for the dirty-counter witness. -/
def testE5 : EditorConfig :=
  { cx := 0, cy := 0, rx := 0, rowoffset := 0, columnoffset := 0
    screenrows := 10, screencolumns := 10
    rows := [mkRow ['q']], dirty := 0 }

/-- Concrete editor state for the index-clamping witness. -/
def testE6 : EditorConfig :=
  { cx := 0, cy := 0, rx := 0, rowoffset := 0, columnoffset := 0
    screenrows := 10, screencolumns := 10
    rows := [mkRow ['u']], dirty := 0 }

/-- The document of the Backspace scenario: rows `"foo"`, `"bar"`, cursor at
`(cy = 1, cx = 0)`. -/
def testE7 : EditorConfig :=
  { cx := 0, cy := 1, rx := 0, rowoffset := 0, columnoffset := 0
    screenrows := 10, screencolumns := 10
    rows := [mkRow ['f', 'o', 'o'], mkRow ['b', 'a', 'r']], dirty := 0 }

/-- Concrete editor state for the search witness: rows `"foo"`, `"bar"`,
`"baz"`. -/
def testE9 : EditorConfig :=
  { cx := 0, cy := 0, rx := 0, rowoffset := 0, columnoffset := 0
    screenrows := 10, screencolumns := 10
    rows := [mkRow ['f', 'o', 'o'], mkRow ['b', 'a', 'r'], mkRow ['b', 'a', 'z']]
    dirty := 0 }

/-! ## Render length bound (C1) -/

/-- The render form of a row is at most `size + tabs * (TAB_STOP - 1)` long:
a tab at render column `idx` expands to `TAB_STOP - idx % TAB_STOP ≤ TAB_STOP`
cells, every other character to one cell. -/
theorem renderChars_length_le (cs : List Char) : ∀ idx : Nat,
    (renderChars cs idx).length ≤ cs.length + (TAB_STOP - 1) * cs.count '\t' := by
  induction cs with
  | nil => intro idx; simp [renderChars]
  | cons c cs ih =>
    intro idx
    by_cases hc : c = '\t'
    · subst hc
      have h1 : TAB_STOP - idx % TAB_STOP ≤ TAB_STOP := Nat.sub_le _ _
      have h2 := ih (idx + (TAB_STOP - idx % TAB_STOP))
      simp only [renderChars, eq_self_iff_true, if_true, List.length_append,
        List.length_replicate, List.length_cons, List.count_cons_self, TAB_STOP] at h1 h2 ⊢
      omega
    · have h2 := ih (idx + 1)
      have hcount : (c :: cs).count '\t' = cs.count '\t' := by
        simp [List.count_cons, hc]
      simp only [renderChars, if_neg hc, List.length_cons, hcount]
      omega

/-- Row edits keep the render form in sync with the text
(`editor_update_row` is called before each mutation returns). -/
theorem applyRowOp_render (r : erow) (op : RowOp)
    (h : r.render = renderChars r.chars 0) :
    (applyRowOp r op).render = renderChars (applyRowOp r op).chars 0 := by
  cases op with
  | ins at' c => rfl
  | del at' =>
    simp only [applyRowOp, editor_row_delete_char]
    split
    · exact h
    · rfl

/-- The render-sync invariant holds after any sequence of row edits. -/
theorem applyRowOps_render (ops : List RowOp) : ∀ r : erow,
    r.render = renderChars r.chars 0 →
    (applyRowOps r ops).render = renderChars (applyRowOps r ops).chars 0 := by
  induction ops with
  | nil => intro r h; exact h
  | cons op ops ih =>
    intro r h
    simpa [applyRowOps, List.foldl_cons] using ih _ (applyRowOp_render r op h)

/-- C1 (amended): after any sequence of insert-char/delete-char operations on
a row, the regenerated render form's length `rsize` is at most
`size + tabs_in_row * (TAB_STOP - 1)`. -/
theorem c1_render_length_bound (ops : List RowOp) (init : List Char) :
    (applyRowOps (mkRow init) ops).render.length ≤
      (applyRowOps (mkRow init) ops).chars.length +
        (TAB_STOP - 1) * (applyRowOps (mkRow init) ops).chars.count '\t' := by
  have h := applyRowOps_render ops (mkRow init) rfl
  rw [h]
  exact renderChars_length_le _ 0

/-- C1 counterexample: inserting `'a'` then `'\t'` into an empty row gives
`chars = "a\t"` with `rsize = 4`, while the claimed formula
`size + tabs * (TAB_STOP - 1)` gives `2 + 1*3 = 5`; the claimed equality is
false. -/
theorem c1_rsize_counterexample :
    (applyRowOps (mkRow []) [RowOp.ins 0 'a', RowOp.ins 1 '\t']).render.length = 4 ∧
    (applyRowOps (mkRow []) [RowOp.ins 0 'a', RowOp.ins 1 '\t']).chars.length +
      (TAB_STOP - 1) *
        (applyRowOps (mkRow []) [RowOp.ins 0 'a', RowOp.ins 1 '\t']).chars.count '\t' = 5 ∧
    (4 : Nat) ≠ 5 := by
  refine ⟨by decide, by decide, by decide⟩

/-! ## Inverse consistency of the column conversions (C2) -/

/-- Each conversion step advances the render column by at least one. -/
theorem tabStep_lt (rx : Nat) (c : Char) : rx < tabStep rx c := by
  unfold tabStep
  split <;> omega

/-- `cxToRxGo` never decreases the render column. -/
theorem cxToRxGo_le (n : Nat) : ∀ (cs : List Char) (rx : Nat), rx ≤ cxToRxGo n cs rx := by
  induction n with
  | zero => intro cs rx; exact Nat.le_refl _
  | succ n ih =>
    intro cs rx
    cases cs with
    | nil =>
      have h := ih [] (rx + 1)
      simp only [cxToRxGo]
      omega
    | cons c cs =>
      have h1 := ih cs (tabStep rx c)
      have h2 := tabStep_lt rx c
      simp only [cxToRxGo]
      omega

/-- Generalized inverse property: scanning for the render column produced by
the first `cx` characters recovers `cx`. -/
theorem rxToCxGo_cxToRxGo (cs : List Char) : ∀ (cx rx0 acc : Nat), cx ≤ cs.length →
    rxToCxGo cs rx0 (cxToRxGo cx cs rx0) acc = acc + cx := by
  induction cs with
  | nil =>
    intro cx rx0 acc hcx
    simp only [List.length_nil, Nat.le_zero] at hcx
    subst hcx
    simp [rxToCxGo, cxToRxGo]
  | cons c cs ih =>
    intro cx rx0 acc hcx
    cases cx with
    | zero =>
      have h2 := tabStep_lt rx0 c
      simp only [cxToRxGo, rxToCxGo]
      rw [if_pos h2]
      omega
    | succ k =>
      have hle : tabStep rx0 c ≤ cxToRxGo k cs (tabStep rx0 c) := cxToRxGo_le k cs _
      have hk : k ≤ cs.length := by
        simp only [List.length_cons] at hcx
        omega
      have hih := ih k (tabStep rx0 c) (acc + 1) hk
      simp only [cxToRxGo, rxToCxGo]
      rw [if_neg (by omega)]
      rw [hih]
      omega

/-- C2: for any row and any cursor column `cx` within `[0, size]`,
`editor_row_rx_to_cx` inverts `editor_row_cx_to_rx`. -/
theorem c2_rx_cx_inverse (row : erow) (cx : Nat) (h : cx ≤ row.chars.length) :
    editor_row_rx_to_cx row (editor_row_cx_to_rx row cx) = cx := by
  have hmain := rxToCxGo_cxToRxGo row.chars cx 0 0 h
  simpa [editor_row_rx_to_cx, editor_row_cx_to_rx] using hmain

/-- Witness for C2 at the row `"a\tb"` and `cx = 2`. -/
theorem c2_rx_cx_inverse_witness :
    2 ≤ (mkRow ['a', '\t', 'b']).chars.length ∧
    editor_row_rx_to_cx (mkRow ['a', '\t', 'b'])
      (editor_row_cx_to_rx (mkRow ['a', '\t', 'b']) 2) = 2 :=
  ⟨by decide, c2_rx_cx_inverse (mkRow ['a', '\t', 'b']) 2 (by decide)⟩

/-! ## Viewport invariant (C3) -/

/-- C3: after `editor_scroll`, the cursor row lies inside
`[rowoffset, rowoffset + screenrows)` and the recomputed render column lies
inside `[columnoffset, columnoffset + screencolumns)`; `rx` is recomputed
from `(cx, cy)` by tab expansion and is 0 when the cursor is past the last
row. -/
theorem c3_scroll_viewport_invariant (E : EditorConfig)
    (hcy : 0 ≤ E.cy) (hsr : 0 < E.screenrows) (hsc : 0 < E.screencolumns) :
    (editor_scroll E).rowoffset ≤ (editor_scroll E).cy ∧
    (editor_scroll E).cy < (editor_scroll E).rowoffset + (editor_scroll E).screenrows ∧
    (editor_scroll E).columnoffset ≤ (editor_scroll E).rx ∧
    (editor_scroll E).rx < (editor_scroll E).columnoffset + (editor_scroll E).screencolumns ∧
    (editor_scroll E).rx =
      (if E.cy < (E.rows.length : Int) then
        (cxToRxGo E.cx.toNat (E.rows.getD E.cy.toNat (mkRow [])).chars 0 : Int)
      else 0) := by
  unfold editor_scroll
  dsimp only
  refine ⟨?_, ?_, ?_, ?_, rfl⟩ <;> split_ifs <;> omega

/-- Witness for C3 at a state whose row offset and column offset are both out
of range. -/
theorem c3_scroll_viewport_invariant_witness :
    ((0 : Int) ≤ testE3.cy ∧ (0 : Int) < testE3.screenrows ∧
      (0 : Int) < testE3.screencolumns) ∧
    ((editor_scroll testE3).rowoffset ≤ (editor_scroll testE3).cy ∧
     (editor_scroll testE3).cy <
       (editor_scroll testE3).rowoffset + (editor_scroll testE3).screenrows ∧
     (editor_scroll testE3).columnoffset ≤ (editor_scroll testE3).rx ∧
     (editor_scroll testE3).rx <
       (editor_scroll testE3).columnoffset + (editor_scroll testE3).screencolumns ∧
     (editor_scroll testE3).rx =
       (if testE3.cy < (testE3.rows.length : Int) then
         (cxToRxGo testE3.cx.toNat (testE3.rows.getD testE3.cy.toNat (mkRow [])).chars 0 : Int)
       else 0)) :=
  ⟨⟨by decide, by decide, by decide⟩,
    c3_scroll_viewport_invariant testE3 (by decide) (by decide) (by decide)⟩

/-! ## Cursor column clamp after arrow moves (C10) -/

/-- C10: after `editor_move_cursor` with any key, the cursor column is at
most the length of the row the cursor ends on (taken as 0 when the cursor is
at or past the end of the document), thanks to the final snap
`if (E.cx > rowlen) E.cx = rowlen;`. -/
theorem c10_move_cursor_clamp (E : EditorConfig) (key : Nat) :
    (editor_move_cursor E key).cx ≤ currentRowLen (editor_move_cursor E key) := by
  unfold editor_move_cursor
  dsimp only
  split_ifs with h
  · exact le_refl _
  · omega

/-! ## Backspace at column 0 joins rows (C7) -/

/-- C7: in the document `["foo", "bar"]` with the cursor at `(cy = 1, cx =
0)`, Backspace (`editor_del_char`) produces the single row `"foobar"` with
the cursor at `(cy = 0, cx = 3)`. -/
theorem c7_backspace_join :
    (editor_del_char testE7).rows.map erow.chars = [['f', 'o', 'o', 'b', 'a', 'r']] ∧
    (editor_del_char testE7).cy = 0 ∧
    (editor_del_char testE7).cx = 3 := by
  refine ⟨by decide, by decide, by decide⟩

/-! ## Index clamping of row operations (C6) -/

/-- C6: `editor_del_row` with an out-of-range index leaves the state
unchanged, and `editor_row_insert_char` with an index outside `[0, size]`
behaves exactly as inserting at the row's length. -/
theorem c6_index_clamping (E : EditorConfig) (a1 : Int) (row : erow) (a2 : Int) (c : Char) :
    ((a1 < 0 ∨ (E.rows.length : Int) ≤ a1) → editor_del_row E a1 = E) ∧
    ((a2 < 0 ∨ (row.chars.length : Int) < a2) →
      editor_row_insert_char row a2 c =
        editor_row_insert_char row (row.chars.length : Int) c) := by
  constructor
  · intro h
    unfold editor_del_row
    rw [if_pos (by omega)]
  · intro h
    have hclamp : insertClampIdx row a2 = insertClampIdx row (row.chars.length : Int) := by
      unfold insertClampIdx
      rw [if_pos (by omega), if_neg (by omega)]
      omega
    unfold editor_row_insert_char
    rw [hclamp]

/-- Witness for C6: deleting row `-1` is a no-op and inserting at index 5 of
the one-character row `"u"` is inserting at its end. -/
theorem c6_index_clamping_witness :
    editor_del_row testE6 (-1) = testE6 ∧
    editor_row_insert_char (mkRow ['u']) 5 'x' =
      editor_row_insert_char (mkRow ['u']) (((mkRow ['u']).chars.length : Int)) 'x' :=
  ⟨(c6_index_clamping testE6 (-1) (mkRow ['u']) 5 'x').1 (by decide),
   (c6_index_clamping testE6 (-1) (mkRow ['u']) 5 'x').2 (by decide)⟩

/-! ## The dirty counter (C5) -/

/-- C5: `dirty` is 0 immediately after `editor_open`; every row mutation
that changes the document increments it (`editor_insert_row` and
`editor_del_row` for in-range indices, `editor_row_insert_char` and
`editor_row_append_string` always, `editor_row_delete_char` for in-range
indices); a successful save resets it to 0 and leaves the rows alone; a
failed save leaves the entire state, rows and counter included, unchanged. -/
theorem c5_dirty_counter (E : EditorConfig) (content s : List Char)
    (a1 a2 a4 : Int) (i1 i2 i3 : Nat) (c : Char) :
    ((editor_open content E).dirty = 0) ∧
    (0 ≤ a1 → a1 ≤ (E.rows.length : Int) → (editor_insert_row E a1 s).dirty = E.dirty + 1) ∧
    (0 ≤ a2 → a2 < (E.rows.length : Int) → (editor_del_row E a2).dirty = E.dirty + 1) ∧
    ((row_insert_char_st E i1 a4 c).dirty = E.dirty + 1) ∧
    ((row_append_string_st E i2 s).dirty = E.dirty + 1) ∧
    (∀ a3 : Int, 0 ≤ a3 → a3 < ((E.rows.getD i3 (mkRow [])).chars.length : Int) →
      (row_delete_char_st E i3 a3).dirty = E.dirty + 1) ∧
    ((editor_save true E).dirty = 0) ∧
    ((editor_save true E).rows = E.rows) ∧
    (editor_save false E = E) := by
  refine ⟨rfl, ?_, ?_, rfl, rfl, ?_, rfl, rfl, rfl⟩
  · intro h1 h2
    unfold editor_insert_row
    rw [if_neg (by omega)]
  · intro h1 h2
    unfold editor_del_row
    rw [if_neg (by omega)]
  · intro a3 h1 h2
    unfold row_delete_char_st
    rw [if_neg (by omega)]

/-- Witness for C5 on a one-row document. -/
theorem c5_dirty_counter_witness :
    ((editor_open ['x'] testE5).dirty = 0) ∧
    ((editor_insert_row testE5 0 ['y']).dirty = testE5.dirty + 1) ∧
    ((editor_del_row testE5 0).dirty = testE5.dirty + 1) ∧
    ((row_insert_char_st testE5 0 0 'z').dirty = testE5.dirty + 1) ∧
    ((row_append_string_st testE5 0 ['y']).dirty = testE5.dirty + 1) ∧
    ((row_delete_char_st testE5 0 0).dirty = testE5.dirty + 1) ∧
    ((editor_save true testE5).dirty = 0) ∧
    ((editor_save true testE5).rows = testE5.rows) ∧
    (editor_save false testE5 = testE5) := by
  have h := c5_dirty_counter testE5 ['x'] ['y'] 0 0 0 0 0 0 'z'
  exact ⟨h.1, h.2.1 (by decide) (by decide), h.2.2.1 (by decide) (by decide),
    h.2.2.2.1, h.2.2.2.2.1, h.2.2.2.2.2.1 0 (by decide) (by decide),
    h.2.2.2.2.2.2.1, h.2.2.2.2.2.2.2.1, h.2.2.2.2.2.2.2.2⟩

/-! ## Open/save round trip (C4) -/

/-- `getlineSplit` recovers a leading newline-terminated chunk. -/
theorem getlineSplit_append (rest : List Char) : ∀ l : List Char, '\n' ∉ l →
    getlineSplit (l ++ '\n' :: rest) = (l ++ ['\n']) :: getlineSplit rest := by
  intro l
  induction l with
  | nil => intro h; simp [getlineSplit]
  | cons c l ih =>
    intro h
    have hc : c ≠ '\n' := fun hcc => h (hcc ▸ List.mem_cons_self c l)
    have h' : '\n' ∉ l := fun hm => h (List.mem_cons_of_mem c hm)
    have hrec : getlineSplit (l.append ('\n' :: rest)) =
        (l ++ ['\n']) :: getlineSplit rest := ih h'
    simp only [List.cons_append, getlineSplit, if_neg hc, hrec]

/-- `getlineSplit` splits a file of newline-terminated lines back into
exactly those lines (with their terminators). -/
theorem getlineSplit_flatten (lines : List (List Char))
    (h : ∀ l ∈ lines, '\n' ∉ l) :
    getlineSplit ((lines.map (fun l => l ++ ['\n'])).flatten) =
      lines.map (fun l => l ++ ['\n']) := by
  induction lines with
  | nil => rfl
  | cons l ls ih =>
    have hl : '\n' ∉ l := h l (List.mem_cons_self l ls)
    have hls : ∀ x ∈ ls, '\n' ∉ x := fun x hx => h x (List.mem_cons_of_mem l hx)
    simp only [List.map_cons, List.flatten_cons, List.append_assoc, List.singleton_append]
    rw [getlineSplit_append _ l hl, ih hls]

/-- Stripping the terminator of a line that does not itself end in `\r`
recovers the line. -/
theorem stripTrail_append (l : List Char) (h1 : '\n' ∉ l)
    (h2 : l.getLast? ≠ some '\r') :
    stripTrail (l ++ ['\n']) = l := by
  unfold stripTrail
  rw [List.reverse_append]
  simp only [List.reverse_cons, List.reverse_nil, List.nil_append, List.singleton_append]
  rw [List.dropWhile_cons]
  simp only [decide_True, Bool.true_or, if_true]
  cases hrev : l.reverse with
  | nil =>
    have : l = [] := by simpa using congrArg List.reverse hrev
    simp [this, hrev]
  | cons x xs =>
    have hx : x ∈ l := by
      have : x ∈ l.reverse := hrev ▸ List.mem_cons_self x xs
      simpa using this
    have hxn : x ≠ '\n' := fun hh => h1 (hh ▸ hx)
    have hlast : l.getLast? = some x := by
      rw [← List.head?_reverse, hrev]
      rfl
    have hxr : x ≠ '\r' := fun hh => h2 (by rw [hlast, hh])
    rw [List.dropWhile_cons]
    rw [if_neg (by simp [hxn, hxr])]
    rw [← hrev, List.reverse_reverse]

/-- The row-append fold of `editor_open` appends one `mkRow` per chunk. -/
theorem open_fold_rows (ls : List (List Char)) : ∀ E : EditorConfig,
    (ls.foldl (fun E l => editor_append_row E (stripTrail l)) E).rows =
      E.rows ++ ls.map (fun l => mkRow (stripTrail l)) := by
  induction ls with
  | nil => intro E; simp
  | cons l ls ih =>
    intro E
    have happ : (editor_append_row E (stripTrail l)).rows =
        E.rows ++ [mkRow (stripTrail l)] := by
      unfold editor_append_row editor_insert_row
      rw [if_neg (by omega)]
      simp
    simp only [List.foldl_cons, List.map_cons]
    rw [ih, happ, List.append_assoc, List.singleton_append]

/-- The rows produced by `editor_open`. -/
theorem editor_open_rows (content : List Char) (E : EditorConfig) :
    (editor_open content E).rows =
      E.rows ++ (getlineSplit content).map (fun l => mkRow (stripTrail l)) := by
  unfold editor_open
  exact open_fold_rows (getlineSplit content) E

/-- C4 (amended): opening a file of `N` lines, each terminated by a single
LF and none of whose contents end in a carriage return, yields exactly `N`
rows whose `chars` are the lines with terminators stripped, and
`editor_rows_to_string` on the result reproduces the file byte for byte.
(Without the no-trailing-CR proviso the code also strips a `\r` preceding
the LF, so the round trip is not byte-identical.) -/
theorem c4_open_save_roundtrip (lines : List (List Char))
    (h : ∀ l ∈ lines, '\n' ∉ l ∧ l.getLast? ≠ some '\r') :
    (editor_open ((lines.map (fun l => l ++ ['\n'])).flatten) (init_editor 24 80)).rows.length
        = lines.length ∧
    (editor_open ((lines.map (fun l => l ++ ['\n'])).flatten) (init_editor 24 80)).rows.map
        erow.chars = lines ∧
    editor_rows_to_string
        (editor_open ((lines.map (fun l => l ++ ['\n'])).flatten) (init_editor 24 80))
      = (lines.map (fun l => l ++ ['\n'])).flatten := by
  have hrows : (editor_open ((lines.map (fun l => l ++ ['\n'])).flatten)
      (init_editor 24 80)).rows = lines.map mkRow := by
    rw [editor_open_rows]
    show [] ++ _ = _
    rw [List.nil_append,
      getlineSplit_flatten lines (fun l hl => (h l hl).1), List.map_map]
    refine List.map_congr_left (fun l hl => ?_)
    show mkRow (stripTrail (l ++ ['\n'])) = mkRow l
    rw [stripTrail_append l (h l hl).1 (h l hl).2]
  refine ⟨?_, ?_, ?_⟩
  · rw [hrows, List.length_map]
  · rw [hrows, List.map_map]
    have hcomp : erow.chars ∘ mkRow = id := rfl
    rw [hcomp, List.map_id]
  · unfold editor_rows_to_string
    rw [hrows, List.map_map]
    rfl

/-- Witness for C4 on the two-line file `"a\nb\n"`. -/
theorem c4_open_save_roundtrip_witness :
    (∀ l ∈ [['a'], ['b']], '\n' ∉ l ∧ l.getLast? ≠ some '\r') ∧
    ((editor_open ((([['a'], ['b']] : List (List Char)).map (fun l => l ++ ['\n'])).flatten)
        (init_editor 24 80)).rows.length = 2 ∧
     (editor_open ((([['a'], ['b']] : List (List Char)).map (fun l => l ++ ['\n'])).flatten)
        (init_editor 24 80)).rows.map erow.chars = [['a'], ['b']] ∧
     editor_rows_to_string
        (editor_open ((([['a'], ['b']] : List (List Char)).map (fun l => l ++ ['\n'])).flatten)
          (init_editor 24 80))
       = (([['a'], ['b']] : List (List Char)).map (fun l => l ++ ['\n'])).flatten) :=
  ⟨by decide, c4_open_save_roundtrip [['a'], ['b']] (by decide)⟩

/-- C4 counterexample: the file `"a\r\n"` consists of one line (`"a\r"`)
terminated by a single LF, yet opening it strips the carriage return as well
(`chars = "a"`, not `"a\r"`), and saving immediately produces `"a\n"`, which
differs from the original file. -/
theorem c4_roundtrip_counterexample :
    (editor_open ['a', '\r', '\n'] (init_editor 24 80)).rows.map erow.chars = [['a']] ∧
    ([['a']] : List (List Char)) ≠ [['a', '\r']] ∧
    editor_rows_to_string (editor_open ['a', '\r', '\n'] (init_editor 24 80)) = ['a', '\n'] ∧
    (['a', '\n'] : List Char) ≠ ['a', '\r', '\n'] := by
  refine ⟨by decide, by decide, by decide, by decide⟩

/-! ## Escape-sequence decoding (C8) -/

set_option maxHeartbeats 1000000 in
/-- C8 (amended): `editor_read_key` on a stream starting with ESC returns
exactly what the spec's decoding table — extended with the source's
`ESC 0 5/6/H/F` sequences for PageUp/PageDown/Home/End — assigns to the
following bytes, and the literal ESC byte (27) for every sequence outside
that extended table.  In particular `ESC [ d ~` decodes digits 1,7 to Home,
3 to Delete, 4,8 to End, 5 to PageUp, 6 to PageDown, and only the first
three lookahead bytes are ever examined. -/
theorem c8_read_key_decode (bytes : List Nat) :
    editor_read_key 27 bytes = (spec_decode_ext bytes).getD 27 := by
  rcases bytes with _ | ⟨s0, _ | ⟨s1, r2⟩⟩
  · rfl
  · rfl
  · by_cases h0 : s0 = 91
    · subst h0
      by_cases hd : 48 ≤ s1 ∧ s1 ≤ 57
      · obtain ⟨hd1, hd2⟩ := hd
        rcases r2 with _ | ⟨s2, r3⟩
        · interval_cases s1 <;> rfl
        · by_cases h2 : s2 = 126
          · subst h2
            interval_cases s1 <;> rfl
          · interval_cases s1 <;>
              simp [editor_read_key, spec_decode_ext, spec_decode, h2]
      · have h53 : s1 ≠ 53 := by omega
        have h54 : s1 ≠ 54 := by omega
        have h55 : s1 ≠ 55 := by omega
        have h56 : s1 ≠ 56 := by omega
        by_cases h65 : s1 = 65
        · subst h65; rfl
        · by_cases h66 : s1 = 66
          · subst h66; rfl
          · by_cases h67 : s1 = 67
            · subst h67; rfl
            · by_cases h68 : s1 = 68
              · subst h68; rfl
              · by_cases h72 : s1 = 72
                · subst h72; rfl
                · by_cases h70 : s1 = 70
                  · subst h70; rfl
                  · simp [editor_read_key, spec_decode_ext, spec_decode, hd,
                      h53, h54, h55, h56, h65, h66, h67, h68, h72, h70]
    · by_cases h0' : s0 = 48
      · subst h0'
        by_cases h53 : s1 = 53
        · subst h53; rfl
        · by_cases h54 : s1 = 54
          · subst h54; rfl
          · by_cases h72 : s1 = 72
            · subst h72; rfl
            · by_cases h70 : s1 = 70
              · subst h70; rfl
              · simp [editor_read_key, spec_decode_ext, spec_decode,
                  h53, h54, h72, h70]
      · simp [editor_read_key, spec_decode_ext, spec_decode, h0, h0']

/-- C8 counterexample: the escape sequence `ESC '0' '5'` is not in the
spec's decoding table, yet `editor_read_key` returns PageUp for it rather
than the literal ESC byte, so the claim's "any other escape sequence yields
ESC" clause is false as stated. -/
theorem c8_escape_counterexample :
    editor_read_key 27 [48, 53] = PAGE_UP ∧
    PAGE_UP ≠ 27 ∧
    spec_decode [48, 53] = none := by
  refine ⟨by decide, by decide, by decide⟩

/-! ## Search prompt cursor save/restore (C9) -/

/-- C9: if the search prompt ends in cancel (ESC), `editor_find` restores
`cx`, `cy`, `columnoffset` and `rowoffset` to exactly the values saved when
the search began, keeping everything else from the prompt's final state; if
it ends in commit (Enter), `editor_find` returns the prompt's final state
unchanged — and the commit keystroke's callback itself never moves the
cursor, so the cursor stays where the last located match put it. -/
theorem c9_find_restore (keys : List Nat) (E : EditorConfig) (fs : FindState) :
    (∀ Ep fsp, editor_prompt_find keys [] E fs = some (none, Ep, fsp) →
      editor_find keys E fs = some ({ Ep with
        cx := E.cx
        cy := E.cy
        columnoffset := E.columnoffset
        rowoffset := E.rowoffset }, fsp)) ∧
    (∀ q Ep fsp, editor_prompt_find keys [] E fs = some (some q, Ep, fsp) →
      editor_find keys E fs = some (Ep, fsp)) ∧
    (∀ buf E' fs', (editor_find_callback buf 13 E' fs').1 = E') := by
  refine ⟨?_, ?_, ?_⟩
  · intro Ep fsp h
    unfold editor_find
    rw [h]
  · intro q Ep fsp h
    unfold editor_find
    rw [h]
  · intro buf E' fs'
    rfl

/-- Witness for C9 on the document `["foo", "bar", "baz"]`: typing `b` then
ESC restores the initial state exactly; typing `bar` then Enter leaves the
cursor on the matching row 1; the Enter callback does not move the cursor. -/
theorem c9_find_restore_witness :
    editor_find [98, 27] testE9 ⟨-1, 1⟩ = some (testE9, ⟨-1, 1⟩) ∧
    editor_find [98, 97, 114, 13] testE9 ⟨-1, 1⟩ =
      some ({ testE9 with cy := 1 }, ⟨-1, 1⟩) ∧
    (editor_find_callback ['b'] 13 testE9 ⟨-1, 1⟩).1 = testE9 := by
  refine ⟨?_, ?_, (c9_find_restore [] testE9 ⟨-1, 1⟩).2.2 ['b'] testE9 ⟨-1, 1⟩⟩
  · exact (c9_find_restore [98, 27] testE9 ⟨-1, 1⟩).1
      { testE9 with cy := 1 } ⟨-1, 1⟩ (by decide)
  · exact (c9_find_restore [98, 97, 114, 13] testE9 ⟨-1, 1⟩).2.1
      ['b', 'a', 'r'] { testE9 with cy := 1 } ⟨-1, 1⟩ (by decide)
